import Mathlib

/-
Shallow embedding of the format-chain decoding pipeline of the `ouch`
archive utility, covering:

  * src/error.rs      — the unified `Error` taxonomy, `FinalError` and its
                        user-facing rendering;
  * src/commands/list.rs — `list_archive_contents` and its inner
                        `chain_reader_decoder` closure;
  * src/main.rs       — the top-level error rendering / exit-status logic.

File handles, decoders and buffers are modelled symbolically as a `Source`
tree; I/O operations that can fail in the Rust code are driven by an
`IoEnv` record that says, for each fallible operation, whether it fails
and with which error.  Rust panics (`unreachable!`, `panic!`, unchecked
indexing, `.unwrap()`) are modelled as a distinct `panicked` outcome,
separate from the ordinary `Error` results.
-/

set_option autoImplicit false

namespace Ouch

/-! ## Constants from src/main.rs -/

/-- Mirrors `const BUFFER_CAPACITY: usize = 1024 * 32` in src/main.rs. -/
def BUFFER_CAPACITY : Nat := 1024 * 32

/-- Mirrors `pub const EXIT_FAILURE: i32 = libc::EXIT_FAILURE` (which is 1). -/
def EXIT_FAILURE : Int := 1

/-! ## CompressionFormat

Modelled from the spec: the `CompressionFormat` enum lives in
src/extension.rs, which is not among the provided sources; its variants
and their container/stream partition are taken from the spec (§3) and from
the exhaustive `match` arms in src/commands/list.rs. -/

/-- Closed set of layer kinds recognised by the pipeline. -/
inductive CompressionFormat
  | Gzip
  | Bzip
  | Bzip3
  | Lz4
  | Lzma
  | Snappy
  | Zstd
  | Tar
  | Zip
  | Rar
  | SevenZip
  deriving DecidableEq, Repr

/-- Container kinds, as partitioned by the match arms of
src/commands/list.rs (`Tar | Zip | Rar | SevenZip => unreachable!()`). -/
def CompressionFormat.is_archive : CompressionFormat → Bool
  | .Tar | .Zip | .Rar | .SevenZip => true
  | _ => false

/-- Seeking-container kinds: require random access (io::Seek), per the
spec's policy table (§4.3) and the buffering branches of list.rs. -/
def CompressionFormat.isSeekingContainer : CompressionFormat → Bool
  | .Zip | .Rar | .SevenZip => true
  | _ => false

/-! ## Errors (src/error.rs) -/

/-- Model of `std::io::ErrorKind`: the three kinds the conversion
distinguishes, plus a numeric tag standing for every other kind. -/
inductive IoErrorKind
  | NotFound
  | PermissionDenied
  | AlreadyExists
  | other (tag : Nat)
  deriving DecidableEq, Repr

/-- Model of `std::io::Error`: a kind plus the message that
`err.to_string()` would produce. -/
structure IoError where
  kind : IoErrorKind
  message : String
  deriving DecidableEq, Repr

/-- Model of `err.to_string()` on a `std::io::Error`. -/
def IoError.toStr (e : IoError) : String := e.message

/-- Model of `FinalError` (src/error.rs): title + detail lines + hint
lines. -/
structure FinalError where
  title : String
  details : List String
  hints : List String
  deriving DecidableEq, Repr

/-- Mirrors `FinalError::with_title`. -/
def FinalError.with_title (title : String) : FinalError :=
  { title := title, details := [], hints := [] }

/-- Mirrors `FinalError::detail` (pushes one detail line). -/
def FinalError.detail (e : FinalError) (d : String) : FinalError :=
  { e with details := e.details ++ [d] }

/-- Mirrors `FinalError::hint` (pushes one hint line). -/
def FinalError.hint (e : FinalError) (h : String) : FinalError :=
  { e with hints := e.hints ++ [h] }

/-- Model of the `Error` enum of src/error.rs.  Payloads that are
`&'static str`, `String` or library error types are all modelled as the
`String` they display as. -/
inductive Error
  | IoError (reason : String)
  | Lz4Error (reason : String)
  | NotFound (error_title : String)
  | AlreadyExists (error_title : String)
  | InvalidZipArchive (reason : String)
  | PermissionDenied (error_title : String)
  | UnsupportedZipArchive (reason : String)
  | CompressingRootFolder
  | WalkdirError (reason : String)
  | Custom (reason : FinalError)
  | InvalidFormat (reason : String)
  | SevenzipError (reason : String)
  | UnsupportedFormat (reason : String)
  | InvalidPassword (reason : String)
  | UnrarError (reason : String)
  deriving DecidableEq, Repr

/-- Mirrors `impl From<std::io::Error> for Error` (src/error.rs lines
163-180): three kinds are refined into dedicated variants, everything
else becomes `IoError`. -/
def Error.from_io (err : Ouch.IoError) : Error :=
  match err.kind with
  | .NotFound => .NotFound err.toStr
  | .PermissionDenied => .PermissionDenied err.toStr
  | .AlreadyExists => .AlreadyExists err.toStr
  | .other _ => .IoError err.toStr

/-- Model of `zip::result::ZipError`. -/
inductive ZipError
  | Io (e : IoError)
  | InvalidArchive (filename : String)
  | FileNotFound
  | UnsupportedArchive (filename : String)
  deriving DecidableEq, Repr

/-- Mirrors `impl From<zip::result::ZipError> for Error`. -/
def Error.from_zip (err : ZipError) : Error :=
  match err with
  | .Io io_err => Error.from_io io_err
  | .InvalidArchive filename => .InvalidZipArchive filename
  | .FileNotFound =>
      .Custom ((FinalError.with_title "Unexpected error in zip archive").detail "File not found")
  | .UnsupportedArchive filename => .UnsupportedZipArchive filename

/-! ## FinalError rendering (src/error.rs, `impl Display for FinalError`)

Modelled from the spec: the colour constants live in src/utils/colors.rs,
which is not among the provided sources; they are fixed ANSI escape
strings (decorative, newline-free).  The accessibility flag
`is_running_in_accessible_mode()` is modelled as an explicit `Bool`
argument, making the rendering a pure function of the error value and the
flag. -/

def RED : String := "\x1b[38;5;9m"

def YELLOW : String := "\x1b[38;5;11m"

def GREEN : String := "\x1b[38;5;10m"

def RESET : String := "\x1b[0m"

/-- Title line of the rendering: accessible mode replaces the bracketed
prefix `[ERROR] ` with `ERROR: `. -/
def FinalError.titleLine (e : FinalError) (accessible : Bool) : String :=
  if accessible then
    RED ++ "ERROR" ++ RESET ++ ": " ++ e.title
  else
    RED ++ "[ERROR]" ++ RESET ++ " " ++ e.title

/-- Detail lines: mirrors the `for detail in &self.details` loop, each
write being `"\n - {YELLOW}{detail}{RESET}"`. -/
def renderDetails : List String → String
  | [] => ""
  | d :: rest => "\n - " ++ YELLOW ++ d ++ RESET ++ renderDetails rest

/-- Concatenation of lines, each preceded by a newline: the shape every
`write!(f, "\n...")` loop of the renderer produces. -/
def joinLines : List String → String
  | [] => ""
  | line :: rest => "\n" ++ line ++ joinLines rest

/-- Hint lines in accessible mode: one `hints:` header, then each hint on
its own line with no per-line label (`write!(f, "\n{hint}")`). -/
def renderHintsAccessible (hints : List String) : String :=
  "\n" ++ GREEN ++ "hints:" ++ RESET ++ joinLines hints

/-- Hint lines in standard mode: each hint gets its own `hint:` label. -/
def renderHintsStandard : List String → String
  | [] => ""
  | h :: rest => "\n" ++ GREEN ++ "hint:" ++ RESET ++ " " ++ h ++ renderHintsStandard rest

/-- Mirrors `impl Display for FinalError` (src/error.rs lines 65-101):
title, then details, then — if any hints — a blank separator line and the
hint block, whose shape depends on the accessibility flag. -/
def FinalError.render (e : FinalError) (accessible : Bool) : String :=
  e.titleLine accessible
    ++ renderDetails e.details
    ++ (if e.hints.isEmpty then ""
        else "\n" ++
          (if accessible then renderHintsAccessible e.hints
           else renderHintsStandard e.hints))

/-- Line-structured view of the rendering: the title line, one line per
detail, and — when hints are present — an empty separator line followed
by the hint lines (with a single `hints:` header line in accessible mode,
or a `hint:` label fused into each line otherwise). -/
def FinalError.renderLines (e : FinalError) (accessible : Bool) : List String :=
  [e.titleLine accessible]
    ++ e.details.map (fun d => " - " ++ YELLOW ++ d ++ RESET)
    ++ (if e.hints.isEmpty then []
        else [""] ++
          (if accessible then (GREEN ++ "hints:" ++ RESET) :: e.hints
           else e.hints.map (fun h => GREEN ++ "hint:" ++ RESET ++ " " ++ h)))

/-- Join of a list of lines with single newline separators; the
specification view of the rendered output's line structure. -/
def unlines : List String → String
  | [] => ""
  | [line] => line
  | line :: rest => line ++ "\n" ++ unlines rest

/-- Mirrors `impl fmt::Display for Error` (src/error.rs lines 129-161):
each variant is turned into a `FinalError`. -/
def Error.to_final_error (e : Error) : FinalError :=
  match e with
  | .WalkdirError reason => FinalError.with_title reason
  | .NotFound error_title => (FinalError.with_title error_title).detail "File not found"
  | .CompressingRootFolder =>
      (((FinalError.with_title "It seems you're trying to compress the root folder.").detail
        "This is unadvisable since ouch does compressions in-memory.").hint
        "Use a more appropriate tool for this, such as rsync.")
  | .IoError reason => FinalError.with_title reason
  | .Lz4Error reason => FinalError.with_title reason
  | .AlreadyExists error_title => (FinalError.with_title error_title).detail "File already exists"
  | .InvalidZipArchive reason => (FinalError.with_title "Invalid zip archive").detail reason
  | .PermissionDenied error_title => (FinalError.with_title error_title).detail "Permission denied"
  | .UnsupportedZipArchive reason => (FinalError.with_title "Unsupported zip archive").detail reason
  | .InvalidFormat reason => (FinalError.with_title "Invalid archive format").detail reason
  | .Custom reason => reason
  | .SevenzipError reason => (FinalError.with_title "7z error").detail reason
  | .UnsupportedFormat reason =>
      (FinalError.with_title "Recognised but unsupported format").detail reason
  | .InvalidPassword reason => (FinalError.with_title "Invalid password").detail reason
  | .UnrarError reason => (FinalError.with_title "Unrar error").detail reason

/-- Rendering an `Error`: `write!(f, "{err}")` on the derived
`FinalError`. -/
def Error.display (e : Error) (accessible : Bool) : String :=
  (e.to_final_error).render accessible

/-! ## Byte sources (symbolic model of readers in src/commands/list.rs) -/

/-- Symbolic byte source: the opened file, the `BufReader` wrapper, a
stream-decoder wrapper (one per `chain_reader_decoder` call), or an
in-memory `io::Cursor` over a `Vec` filled by `io::copy` from another
source. -/
inductive Source
  | file (path : String)
  | bufReader (capacity : Nat) (inner : Source)
  | decoder (format : CompressionFormat) (inner : Source)
  | memCursor (contents : Source)
  deriving DecidableEq, Repr

/-- Holds when a source is the opened file itself, possibly behind the
fixed-capacity `BufReader` (which never materializes the archive). -/
def Source.isRawFile : Source → Bool
  | .file _ => true
  | .bufReader _ inner => inner.isRawFile
  | .decoder _ _ => false
  | .memCursor _ => false

/-- What a container reader is opened on: an in-process byte source, the
original archive path, or the path of a temporary file filled with the
given source's bytes (`NamedTempFile` in the RAR branch). -/
inductive ContainerInput
  | reader (s : Source)
  | origPath (p : String)
  | tempFilePath (contents : Source)
  deriving DecidableEq, Repr

/-- Direct access: the container is opened on the file itself or on its
path, with no materialized copy of the bytes in between. -/
def ContainerInput.isDirect : ContainerInput → Bool
  | .reader s => s.isRawFile
  | .origPath _ => true
  | .tempFilePath _ => false

/-! ## QuestionPolicy -/

/-- Modelled from the spec: the tri-state policy of §3 — always proceed,
always refuse, or ask the user interactively (src/utils is not among the
provided sources). -/
inductive QuestionPolicy
  | alwaysYes
  | alwaysNo
  | ask
  deriving DecidableEq, Repr

/-- Modelled from the spec: `user_wants_to_continue` resolves the
tri-state policy, falling back to the interactive answer in the `ask`
case (src/utils is not among the provided sources). -/
def user_wants_to_continue (policy : QuestionPolicy) (userAnswer : Bool) : Bool :=
  match policy with
  | .alwaysYes => true
  | .alwaysNo => false
  | .ask => userAnswer

/-! ## I/O environment

Each field corresponds to one fallible operation of
`list_archive_contents`; `none` (the default) means that operation
succeeds. -/

/-- Outcomes of the individual fallible I/O operations, in program
order. -/
structure IoEnv where
  openError : Option IoError := none
  zipOpenDirectError : Option ZipError := none
  zstdNewError : Option IoError := none
  bz3NewFails : Bool := false
  userWantsError : Option Error := none
  ioCopyZipError : Option IoError := none
  zipOpenBufferedError : Option ZipError := none
  tempFileError : Option IoError := none
  ioCopyRarError : Option IoError := none
  rarListError : Option Error := none
  sevenzListError : Option Error := none
  listFilesError : Option Error := none
  deriving DecidableEq, Repr

/-- Result of a step that can succeed, fail with an ordinary `Error`, or
abort the process with a panic. -/
inductive PResult (α : Type)
  | ok (a : α)
  | err (e : Error)
  | panicked (msg : String)
  deriving DecidableEq, Repr

/-! ## Panic messages -/

/-- Message of the `panic!` in the stream-kind arm of `match formats[0]`
(src/commands/list.rs lines 115-117). -/
def notAnArchivePanic : String :=
  "Not an archive! This should never happen, if it does, something is wrong with `CompressionFormat::is_archive()`. Please report this error!"

/-- Message of `unreachable!()` in `chain_reader_decoder`. -/
def unreachablePanic : String := "internal error: entered unreachable code"

/-- Message of the `.unwrap()` on `Bz3Decoder::new`. -/
def bz3UnwrapPanic : String := "called `Result::unwrap()` on an `Err` value"

/-- Message of the out-of-bounds `formats[0]` on an empty chain. -/
def indexZeroPanic : String := "index out of bounds: the len is 0 but the index is 0"

/-! ## chain_reader_decoder (src/commands/list.rs lines 48-61) -/

/-- Mirrors the `chain_reader_decoder` closure: wraps the previous
decoder in a new one chosen by the format tag.  `Bzip3` calls
`.unwrap()` on the constructor result (a panic on failure), `Zstd`
propagates constructor errors with `?`, and the four container tags hit
`unreachable!()`. -/
def chain_reader_decoder (env : IoEnv) (format : CompressionFormat) (decoder : Source) :
    PResult Source :=
  match format with
  | .Gzip => .ok (.decoder .Gzip decoder)
  | .Bzip => .ok (.decoder .Bzip decoder)
  | .Bzip3 =>
      if env.bz3NewFails then .panicked bz3UnwrapPanic
      else .ok (.decoder .Bzip3 decoder)
  | .Lz4 => .ok (.decoder .Lz4 decoder)
  | .Lzma => .ok (.decoder .Lzma decoder)
  | .Snappy => .ok (.decoder .Snappy decoder)
  | .Zstd =>
      match env.zstdNewError with
      | some e => .err (Error.from_io e)
      | none => .ok (.decoder .Zstd decoder)
  | .Tar | .Zip | .Rar | .SevenZip => .panicked unreachablePanic

/-- Sequential wrapping loop body: applies `chain_reader_decoder` to each
format of the given list in order, rebinding the reader each step. -/
def chainDecodersAux (env : IoEnv) : List CompressionFormat → Source → PResult Source
  | [], reader => .ok reader
  | format :: rest, reader =>
      match chain_reader_decoder env format reader with
      | .ok r => chainDecodersAux env rest r
      | .err e => .err e
      | .panicked m => .panicked m

/-- Mirrors `for format in formats.iter().skip(1).rev() { reader =
chain_reader_decoder(format, reader)? }`: the chain positions after the
container, iterated from the last element toward the second. -/
def chainDecoders (env : IoEnv) (formats : List CompressionFormat) (reader : Source) :
    PResult Source :=
  chainDecodersAux env (formats.drop 1).reverse reader

/-- Specification view of the composed source: position 1 is the
outermost decoder, positions 2..n-1 nest inside it, the base source is
innermost. -/
def nestDecoders : List CompressionFormat → Source → Source
  | [], base => base
  | format :: rest, base => .decoder format (nestDecoders rest base)

/-! ## list_archive_contents (src/commands/list.rs lines 19-121) -/

/-- Observable effects of one `list_archive_contents` call. -/
structure ListEffects where
  policyConsultations : Nat := 0
  lockedOutput : Bool := false
  warned : Bool := false
  memBuffered : Bool := false
  tempFileUsed : Bool := false
  containerOpen : Option (CompressionFormat × ContainerInput) := none
  listedFiles : Bool := false
  deriving DecidableEq, Repr

/-- Final outcome of `list_archive_contents`: `Ok(())`, an `Error`, or a
process-aborting panic. -/
inductive Outcome
  | ok
  | err (e : Error)
  | panicked (msg : String)
  deriving DecidableEq, Repr

/-- Outcome together with the effects accumulated on the way there. -/
structure ListResult where
  outcome : Outcome
  effects : ListEffects
  deriving DecidableEq, Repr

/-- Result of the `match formats[0]` block that builds the `files`
iterator: either the iterator is ready (`files`), the user declined and
the function did `return Ok(())` (`earlyOk`), or an error / panic
occurred. -/
inductive BranchResult
  | files (eff : ListEffects)
  | earlyOk (eff : ListEffects)
  | err (e : Error) (eff : ListEffects)
  | panicked (msg : String) (eff : ListEffects)
  deriving DecidableEq, Repr

/-- Tail of the Zip stream-layered branch: `io::copy` the composed reader
into a `Vec`, then `zip::ZipArchive::new(io::Cursor::new(vec))?`. -/
def zipBufferAndOpen (env : IoEnv) (reader : Source) (eff : ListEffects) : BranchResult :=
  match env.ioCopyZipError with
  | some e => .err (Error.from_io e) eff
  | none =>
    let eff := { eff with memBuffered := true }
    match env.zipOpenBufferedError with
    | some e => .err (Error.from_zip e) eff
    | none => .files { eff with containerOpen := some (.Zip, .reader (.memCursor reader)) }

/-- Mirrors the `match formats[0]` block (src/commands/list.rs lines
67-118), with `reader` the already-composed decoder chain.  The
`unrarFeature` flag selects between the two `#[cfg]` Rar arms. -/
def filesBranch (env : IoEnv) (archive_path : String) (formats : List CompressionFormat)
    (format0 : CompressionFormat) (reader : Source) (question_policy : QuestionPolicy)
    (userAnswer : Bool) (unrarFeature : Bool) : BranchResult :=
  match format0 with
  | .Tar => .files { containerOpen := some (.Tar, .reader reader) }
  | .Zip =>
      if formats.length > 1 then
        let eff : ListEffects :=
          { lockedOutput := true, warned := true, policyConsultations := 1 }
        match env.userWantsError with
        | some e => .err e eff
        | none =>
          if !user_wants_to_continue question_policy userAnswer then
            .earlyOk eff
          else
            zipBufferAndOpen env reader eff
      else
        zipBufferAndOpen env reader {}
  | .Rar =>
      if unrarFeature then
        if formats.length > 1 then
          match env.tempFileError with
          | some e => .err (Error.from_io e) {}
          | none =>
            let eff : ListEffects := { tempFileUsed := true }
            match env.ioCopyRarError with
            | some e => .err (Error.from_io e) eff
            | none =>
              match env.rarListError with
              | some e => .err e eff
              | none => .files { eff with containerOpen := some (.Rar, .tempFilePath reader) }
        else
          match env.rarListError with
          | some e => .err e {}
          | none => .files { containerOpen := some (.Rar, .origPath archive_path) }
      else
        .err (.UnsupportedFormat "RAR support is disabled for this build") {}
  | .SevenZip =>
      if formats.length > 1 then
        let eff : ListEffects :=
          { lockedOutput := true, warned := true, policyConsultations := 1 }
        match env.userWantsError with
        | some e => .err e eff
        | none =>
          if !user_wants_to_continue question_policy userAnswer then
            .earlyOk eff
          else
            match env.sevenzListError with
            | some e => .err e eff
            | none => .files { eff with containerOpen := some (.SevenZip, .origPath archive_path) }
      else
        match env.sevenzListError with
        | some e => .err e {}
        | none => .files { containerOpen := some (.SevenZip, .origPath archive_path) }
  | .Gzip | .Bzip | .Bzip3 | .Lz4 | .Lzma | .Snappy | .Zstd =>
      .panicked notAnArchivePanic {}

/-- Common tail of `list_archive_contents` after the `match formats[0]`
block: an early `return Ok(())` passes through, errors and panics abort,
and a built iterator is consumed by `list::list_files(archive_path,
files, list_options)` (src/commands/list.rs line 120). -/
def branchFinish (env : IoEnv) : BranchResult → ListResult
  | .earlyOk eff => ⟨.ok, eff⟩
  | .err e eff => ⟨.err e, eff⟩
  | .panicked m eff => ⟨.panicked m, eff⟩
  | .files eff =>
      let eff := { eff with listedFiles := true }
      match env.listFilesError with
      | some e => ⟨.err e, eff⟩
      | none => ⟨.ok, eff⟩

/-- Mirrors `list_archive_contents` (src/commands/list.rs lines 19-121):
open the file; the `[Zip]` chain short-circuits to a direct
`ZipArchive::new(reader)`; otherwise wrap in a `BufReader`, fold the
decoder chain over `formats.iter().skip(1).rev()`, and dispatch on the
unchecked `formats[0]` (a panic when the chain is empty); finally run
`list::list_files` on the produced iterator. -/
def list_archive_contents (env : IoEnv) (archive_path : String)
    (formats : List CompressionFormat) (question_policy : QuestionPolicy)
    (userAnswer : Bool) (unrarFeature : Bool) : ListResult :=
  match env.openError with
  | some e => ⟨.err (Error.from_io e), {}⟩
  | none =>
    let reader : Source := .file archive_path
    if formats = [CompressionFormat.Zip] then
      match env.zipOpenDirectError with
      | some e => ⟨.err (Error.from_zip e), {}⟩
      | none =>
        let eff : ListEffects :=
          { containerOpen := some (.Zip, .reader reader), listedFiles := true }
        match env.listFilesError with
        | some e => ⟨.err e, eff⟩
        | none => ⟨.ok, eff⟩
    else
      let reader : Source := .bufReader BUFFER_CAPACITY reader
      match chainDecoders env formats reader with
      | .err e => ⟨.err e, {}⟩
      | .panicked m => ⟨.panicked m, {}⟩
      | .ok reader =>
        match formats with
        | [] => ⟨.panicked indexZeroPanic, {}⟩
        | format0 :: _ =>
          branchFinish env (filesBranch env archive_path formats format0 reader
            question_policy userAnswer unrarFeature)

/-! ## main (src/main.rs lines 40-47) -/

/-- Observable outcome of the tail of `main`: the error blocks printed to
standard error, and the process exit status. -/
structure MainOutcome where
  renderedErrors : List String
  exitCode : Int
  deriving DecidableEq, Repr

/-- Mirrors the tail of `main`: `if let Err(err) = result {
eprintln!("{err}"); std::process::exit(EXIT_FAILURE); }`, falling off the
end (status 0) otherwise. -/
def handle_result (result : Except Error Unit) (accessible : Bool) : MainOutcome :=
  match result with
  | .error err => ⟨[err.display accessible], EXIT_FAILURE⟩
  | .ok _ => ⟨[], 0⟩

/-- Holds when the container reader for kind `c` was opened directly on
the file (or its path), with no materialized copy in between. -/
def ListResult.openedDirectly (r : ListResult) (c : CompressionFormat) : Bool :=
  match r.effects.containerOpen with
  | some (c', ci) => c' == c && ci.isDirect
  | none => false

/-! ## Helper lemmas about the decoder chain -/

/-- Loop-order view of the wrapping: each iteration wraps the current
accumulated source, so the first processed format ends up innermost. -/
def revNest : List CompressionFormat → Source → Source
  | [], base => base
  | format :: rest, base => revNest rest (.decoder format base)

lemma revNest_append (xs : List CompressionFormat) (f : CompressionFormat) (b : Source) :
    revNest (xs ++ [f]) b = .decoder f (revNest xs b) := by
  induction xs generalizing b with
  | nil => rfl
  | cons x xs ih => simp [revNest, ih]

lemma revNest_reverse (l : List CompressionFormat) (b : Source) :
    revNest l.reverse b = nestDecoders l b := by
  induction l generalizing b with
  | nil => rfl
  | cons f rest ih => simp [nestDecoders, revNest_append, ih]

lemma chain_reader_decoder_stream (env : IoEnv) (hb : env.bz3NewFails = false)
    (hz : env.zstdNewError = none) (f : CompressionFormat) (hf : f.is_archive = false)
    (r : Source) :
    chain_reader_decoder env f r = .ok (.decoder f r) := by
  cases f <;> simp_all [chain_reader_decoder, CompressionFormat.is_archive]

lemma chainDecodersAux_stream (env : IoEnv) (hb : env.bz3NewFails = false)
    (hz : env.zstdNewError = none) :
    ∀ (l : List CompressionFormat), (∀ f ∈ l, f.is_archive = false) →
      ∀ r, chainDecodersAux env l r = .ok (revNest l r) := by
  intro l
  induction l with
  | nil => intro _ r; rfl
  | cons f rest ih =>
    intro hl r
    have hf : f.is_archive = false := hl f (by simp)
    simp only [chainDecodersAux, chain_reader_decoder_stream env hb hz f hf, revNest]
    exact ih (fun g hg => hl g (by simp [hg])) _

lemma chainDecoders_stream (env : IoEnv) (hb : env.bz3NewFails = false)
    (hz : env.zstdNewError = none) (formats : List CompressionFormat)
    (hstream : ∀ f ∈ formats.drop 1, f.is_archive = false) (r : Source) :
    chainDecoders env formats r = .ok (nestDecoders (formats.drop 1) r) := by
  rw [chainDecoders,
    chainDecodersAux_stream env hb hz _ (fun f hf => hstream f (List.mem_reverse.mp hf)) r,
    revNest_reverse]

/-! ## Claim theorems -/

/-- C5: for every format chain of length n ≥ 2 whose stream positions all
carry stream kinds, the composer iterates the chain from the last element
down to the second, wrapping the current source with that layer's decoder
each step; the composed source nests exactly the suffix `formats.drop 1`
around the base, with position 1 outermost — position 0 is never wrapped
as a stream decoder. -/
theorem chain_composer_wraps_from_last_to_second (env : IoEnv)
    (formats : List CompressionFormat) (base : Source) (hlen : 2 ≤ formats.length)
    (hstream : ∀ f ∈ formats.drop 1, f.is_archive = false)
    (hb : env.bz3NewFails = false) (hz : env.zstdNewError = none) :
    chainDecoders env formats base = .ok (nestDecoders (formats.drop 1) base) :=
  chainDecoders_stream env hb hz formats hstream base

/-- Witness for C5: on the chain `[Tar, Gzip, Zstd]` the last layer
(Zstd) is wrapped first (innermost), then Gzip, and Tar is never wrapped. -/
theorem chain_composer_wraps_from_last_to_second_witness :
    chainDecoders {} [.Tar, .Gzip, .Zstd] (.file "f") =
      .ok (.decoder .Gzip (.decoder .Zstd (.file "f"))) :=
  chain_composer_wraps_from_last_to_second {} [.Tar, .Gzip, .Zstd] (.file "f")
    (by decide) (by decide) rfl rfl

/-- C7: the conversion of `std::io::Error` maps kind NotFound to
`Error::NotFound`, PermissionDenied to `Error::PermissionDenied`,
AlreadyExists to `Error::AlreadyExists`, every other kind to
`Error::IoError`, and never produces any other variant. -/
theorem from_io_kind_mapping (e : IoError) :
    (e.kind = .NotFound → Error.from_io e = .NotFound e.toStr)
  ∧ (e.kind = .PermissionDenied → Error.from_io e = .PermissionDenied e.toStr)
  ∧ (e.kind = .AlreadyExists → Error.from_io e = .AlreadyExists e.toStr)
  ∧ (∀ tag, e.kind = .other tag → Error.from_io e = .IoError e.toStr)
  ∧ (Error.from_io e = .NotFound e.toStr ∨ Error.from_io e = .PermissionDenied e.toStr
      ∨ Error.from_io e = .AlreadyExists e.toStr ∨ Error.from_io e = .IoError e.toStr) := by
  obtain ⟨k, msg⟩ := e
  cases k <;> simp [Error.from_io, IoError.toStr]

/-- Witness for C7: a NotFound error refines to `Error::NotFound` and an
unlisted kind falls through to `Error::IoError`. -/
theorem from_io_kind_mapping_witness :
    Error.from_io ⟨.NotFound, "nf"⟩ = .NotFound "nf"
  ∧ Error.from_io ⟨.other 3, "oth"⟩ = .IoError "oth" :=
  ⟨(from_io_kind_mapping ⟨.NotFound, "nf"⟩).1 rfl,
   (from_io_kind_mapping ⟨.other 3, "oth"⟩).2.2.2.1 3 rfl⟩

/-! ## Helper lemmas about list_archive_contents -/

lemma list_reduces_to_branch (path : String) (f0 : CompressionFormat)
    (rest : List CompressionFormat) (p : QuestionPolicy) (ua uf : Bool)
    (hne : (f0 :: rest) ≠ [CompressionFormat.Zip])
    (hstream : ∀ f ∈ rest, f.is_archive = false) :
    list_archive_contents {} path (f0 :: rest) p ua uf =
      branchFinish {} (filesBranch {} path (f0 :: rest) f0
        (nestDecoders rest (.bufReader BUFFER_CAPACITY (.file path))) p ua uf) := by
  unfold list_archive_contents
  rw [if_neg hne]
  simp only [chainDecoders_stream {} rfl rfl (f0 :: rest) (by simpa using hstream)]
  rfl

/-- C1 evaluation at the failing input: for the chain `[SevenZip, Gzip]`
with an always-proceed policy, the 7z reader is opened on the original
archive path, and neither an in-memory buffer nor a temporary file with
the composed decoder output is ever created — the composed decoder
output is discarded. -/
theorem sevenz_stream_chain_opens_original_path :
    list_archive_contents {} "archive.7z.gz" [.SevenZip, .Gzip] .alwaysYes true true =
      ⟨.ok,
        { policyConsultations := 1, lockedOutput := true, warned := true,
          memBuffered := false, tempFileUsed := false,
          containerOpen := some (.SevenZip, .origPath "archive.7z.gz"),
          listedFiles := true }⟩ := rfl

/-- Counterexample to C2: for the chain `[Rar, Gzip]` (unrar feature
enabled) the lister buffers to a temporary file without consulting the
QuestionPolicy at all — zero consultations, not one. -/
theorem rar_stream_chain_never_consults_policy :
    (list_archive_contents {} "archive.rar.gz" [.Rar, .Gzip] .ask false true).effects.policyConsultations
        = 0
  ∧ (list_archive_contents {} "archive.rar.gz" [.Rar, .Gzip] .ask false true).effects.tempFileUsed
        = true :=
  ⟨rfl, rfl⟩

/-- C2 (amended): for chains with at least one stream layer on a
seeking-container head, the ZIP-like and 7z-like branches consult the
QuestionPolicy exactly once before buffering, while the RAR-like branch
never consults it (it spills to a temporary file unconditionally). -/
theorem seeking_container_policy_consultations (path : String)
    (formats : List CompressionFormat) (f0 : CompressionFormat)
    (p : QuestionPolicy) (ua : Bool) (hhead : formats.head? = some f0)
    (hlen : 2 ≤ formats.length)
    (hstream : ∀ f ∈ formats.drop 1, f.is_archive = false) :
    ((f0 = .Zip ∨ f0 = .SevenZip) →
      (list_archive_contents {} path formats p ua true).effects.policyConsultations = 1)
  ∧ (f0 = .Rar →
      (list_archive_contents {} path formats p ua true).effects.policyConsultations = 0) := by
  cases formats with
  | nil => simp at hhead
  | cons a rest =>
    obtain rfl : a = f0 := by simpa using hhead
    have hrest : rest ≠ [] := by
      intro h
      rw [h] at hlen
      simp at hlen
    have hpos : 0 < rest.length := List.length_pos.mpr hrest
    have hne : (a :: rest) ≠ [CompressionFormat.Zip] := by
      intro h
      exact hrest (by simpa using congrArg List.tail h)
    rw [list_reduces_to_branch path a rest p ua true hne (by simpa using hstream)]
    constructor
    · rintro (rfl | rfl) <;>
        · by_cases hw : user_wants_to_continue p ua <;>
            simp [filesBranch, hpos, hw, branchFinish, zipBufferAndOpen]
    · rintro rfl
      simp [filesBranch, hpos, branchFinish]

/-- Witness for C2 (amended): chain `[Zip, Gzip]` consults once, chain
`[Rar, Gzip]` consults zero times. -/
theorem seeking_container_policy_consultations_witness :
    (list_archive_contents {} "a.zip.gz" [.Zip, .Gzip] .alwaysNo false true).effects.policyConsultations
        = 1
  ∧ (list_archive_contents {} "a.rar.gz" [.Rar, .Gzip] .alwaysNo false true).effects.policyConsultations
        = 0 :=
  ⟨(seeking_container_policy_consultations "a.zip.gz" [.Zip, .Gzip] .Zip .alwaysNo false
      rfl (by decide) (by decide)).1 (Or.inl rfl),
   (seeking_container_policy_consultations "a.rar.gz" [.Rar, .Gzip] .Rar .alwaysNo false
      rfl (by decide) (by decide)).2 rfl⟩

/-- C3: for every single-container chain `[c]`, listing opens the
container reader directly on the file or its path, and neither an
in-memory buffer nor a temporary file holding the archive bytes is
created. -/
theorem single_container_chain_is_direct (path : String) (c : CompressionFormat)
    (p : QuestionPolicy) (ua : Bool) (hc : c.is_archive = true) :
    (list_archive_contents {} path [c] p ua true).openedDirectly c = true
  ∧ (list_archive_contents {} path [c] p ua true).effects.memBuffered = false
  ∧ (list_archive_contents {} path [c] p ua true).effects.tempFileUsed = false := by
  cases c <;> first
    | exact ⟨rfl, rfl, rfl⟩
    | simp [CompressionFormat.is_archive] at hc

/-- Witness for C3: the chain `[Tar]` is listed straight off the
(buffered) file handle with no materialization. -/
theorem single_container_chain_is_direct_witness :
    (list_archive_contents {} "a.tar" [.Tar] .ask false true).openedDirectly .Tar = true
  ∧ (list_archive_contents {} "a.tar" [.Tar] .ask false true).effects.memBuffered = false
  ∧ (list_archive_contents {} "a.tar" [.Tar] .ask false true).effects.tempFileUsed = false :=
  single_container_chain_is_direct "a.tar" .Tar .ask false rfl

/-- C4: whenever the buffering gate consults the QuestionPolicy and the
policy refuses, `list_archive_contents` returns `Ok(())` at once: success
outcome, no container opened, no entries listed, no bytes copied into a
buffer or temporary file. -/
theorem gate_refusal_clean_success (path : String) (formats : List CompressionFormat)
    (f0 : CompressionFormat) (p : QuestionPolicy) (ua : Bool)
    (hhead : formats.head? = some f0) (hseek : f0 = .Zip ∨ f0 = .SevenZip)
    (hlen : 2 ≤ formats.length)
    (hstream : ∀ f ∈ formats.drop 1, f.is_archive = false)
    (hrefuse : user_wants_to_continue p ua = false) :
    list_archive_contents {} path formats p ua true =
      ⟨.ok, { policyConsultations := 1, lockedOutput := true, warned := true }⟩ := by
  cases formats with
  | nil => simp at hhead
  | cons a rest =>
    obtain rfl : a = f0 := by simpa using hhead
    have hrest : rest ≠ [] := by
      intro h
      rw [h] at hlen
      simp at hlen
    have hpos : 0 < rest.length := List.length_pos.mpr hrest
    have hne : (a :: rest) ≠ [CompressionFormat.Zip] := by
      intro h
      exact hrest (by simpa using congrArg List.tail h)
    rw [list_reduces_to_branch path a rest p ua true hne (by simpa using hstream)]
    rcases hseek with rfl | rfl <;>
      simp [filesBranch, hpos, hrefuse, branchFinish]

/-- Witness for C4: chain `[Zip, Gzip]` with an always-refuse policy
returns success with no effects beyond the warning and the single
consultation. -/
theorem gate_refusal_clean_success_witness :
    list_archive_contents {} "a.zip.gz" [.Zip, .Gzip] .alwaysNo false true =
      ⟨.ok, { policyConsultations := 1, lockedOutput := true, warned := true }⟩ :=
  gate_refusal_clean_success "a.zip.gz" [.Zip, .Gzip] .Zip .alwaysNo false
    rfl (Or.inl rfl) (by decide) (by decide) rfl

/-! ## Helper lemmas about panics -/

lemma chainDecodersAux_default_result (l : List CompressionFormat) (r : Source) :
    (∃ s, chainDecodersAux {} l r = .ok s)
      ∨ chainDecodersAux {} l r = .panicked unreachablePanic := by
  induction l generalizing r with
  | nil => exact Or.inl ⟨r, rfl⟩
  | cons f rest ih =>
    cases f <;> first
      | exact ih _
      | exact Or.inr rfl

lemma chainDecoders_default_result (formats : List CompressionFormat) (r : Source) :
    (∃ s, chainDecoders {} formats r = .ok s)
      ∨ chainDecoders {} formats r = .panicked unreachablePanic :=
  chainDecodersAux_default_result _ _

lemma chain_reader_decoder_panicked (env : IoEnv) (f : CompressionFormat) (r : Source)
    (m : String) (h : chain_reader_decoder env f r = .panicked m) :
    m = bz3UnwrapPanic ∨ m = unreachablePanic := by
  cases f <;> simp only [chain_reader_decoder] at h <;> (repeat' split at h) <;> simp_all

lemma chainDecodersAux_panicked (env : IoEnv) :
    ∀ (l : List CompressionFormat) (r : Source) (m : String),
      chainDecodersAux env l r = .panicked m →
      m = bz3UnwrapPanic ∨ m = unreachablePanic := by
  intro l
  induction l with
  | nil => intro r m h; simp [chainDecodersAux] at h
  | cons f rest ih =>
    intro r m h
    cases hc : chain_reader_decoder env f r with
    | ok s =>
        rw [chainDecodersAux, hc] at h
        exact ih _ _ h
    | err e =>
        rw [chainDecodersAux, hc] at h
        simp at h
    | panicked mm =>
        rw [chainDecodersAux, hc] at h
        obtain rfl : mm = m := by simpa using h
        exact chain_reader_decoder_panicked env f r mm hc

lemma chainDecoders_panicked (env : IoEnv) (formats : List CompressionFormat) (r : Source)
    (m : String) (h : chainDecoders env formats r = .panicked m) :
    m = bz3UnwrapPanic ∨ m = unreachablePanic :=
  chainDecodersAux_panicked env _ r m h

lemma filesBranch_panicked (env : IoEnv) (path : String) (formats : List CompressionFormat)
    (f0 : CompressionFormat) (r : Source) (p : QuestionPolicy) (ua uf : Bool)
    (m : String) (eff : ListEffects)
    (h : filesBranch env path formats f0 r p ua uf = .panicked m eff) :
    m = notAnArchivePanic := by
  cases f0 <;> unfold filesBranch at h <;> (try unfold zipBufferAndOpen at h) <;>
    (repeat' split at h) <;> simp_all

/-- C6: a chain whose head is a stream kind makes the lister abort with a
fatal panic (either the not-an-archive panic or the unreachable-code
panic when a container kind also sits in a stream position), never an
ordinary `Error`; and passing any container kind to the decoder-chaining
step is itself the unreachable-code panic. -/
theorem non_archive_head_panics :
    (∀ (path : String) (formats : List CompressionFormat) (f0 : CompressionFormat)
        (p : QuestionPolicy) (ua uf : Bool),
        formats.head? = some f0 → f0.is_archive = false →
        (list_archive_contents {} path formats p ua uf).outcome = .panicked notAnArchivePanic
          ∨ (list_archive_contents {} path formats p ua uf).outcome
              = .panicked unreachablePanic)
  ∧ (∀ (env : IoEnv) (c : CompressionFormat) (r : Source), c.is_archive = true →
        chain_reader_decoder env c r = .panicked unreachablePanic) := by
  constructor
  · intro path formats f0 p ua uf hhead hf
    cases formats with
    | nil => simp at hhead
    | cons a rest =>
      obtain rfl : a = f0 := by simpa using hhead
      have hne : (a :: rest) ≠ [CompressionFormat.Zip] := by
        intro hcontra
        obtain ⟨rfl, -⟩ : a = CompressionFormat.Zip ∧ rest = [] := by simpa using hcontra
        simp [CompressionFormat.is_archive] at hf
      unfold list_archive_contents
      rw [if_neg hne]
      rcases chainDecoders_default_result (a :: rest)
          (.bufReader BUFFER_CAPACITY (.file path)) with ⟨s, hs⟩ | hs
      · cases a <;> first
          | exact absurd hf (by decide)
          | (left; simp [hs, filesBranch, branchFinish])
      · right
        simp [hs]
  · intro env c r hc
    cases c <;> first
      | rfl
      | simp [CompressionFormat.is_archive] at hc

/-- Witness for C6: the chain `[Zstd]` panics with the not-an-archive
message, and feeding `Tar` to the decoder-chaining step hits
`unreachable!()`. -/
theorem non_archive_head_panics_witness :
    ((list_archive_contents {} "a.zst" [.Zstd] .alwaysYes true true).outcome
        = .panicked notAnArchivePanic
      ∨ (list_archive_contents {} "a.zst" [.Zstd] .alwaysYes true true).outcome
        = .panicked unreachablePanic)
  ∧ chain_reader_decoder {} .Tar (.file "x") = .panicked unreachablePanic :=
  ⟨non_archive_head_panics.1 "a.zst" [.Zstd] .Zstd .alwaysYes true true rfl rfl,
   non_archive_head_panics.2 {} .Tar (.file "x") rfl⟩

lemma list_cons_reduction (env : IoEnv) (henv : env.openError = none) (path : String)
    (f0 : CompressionFormat) (rest : List CompressionFormat) (p : QuestionPolicy)
    (ua uf : Bool) (hne : (f0 :: rest) ≠ [CompressionFormat.Zip]) :
    list_archive_contents env path (f0 :: rest) p ua uf =
      match chainDecoders env (f0 :: rest) (.bufReader BUFFER_CAPACITY (.file path)) with
      | .err e => ⟨.err e, {}⟩
      | .panicked m => ⟨.panicked m, {}⟩
      | .ok reader =>
          branchFinish env (filesBranch env path (f0 :: rest) f0 reader p ua uf) := by
  unfold list_archive_contents
  rw [henv, if_neg hne]

/-- C10: on the empty format chain `list_archive_contents` aborts with
the out-of-bounds panic of the unchecked `formats[0]` (neither `Ok` nor
an `Error`), and for every non-empty chain — under any I/O environment —
that panic is unreachable. -/
theorem empty_chain_hits_index_panic (path : String) (p : QuestionPolicy) (ua uf : Bool) :
    (list_archive_contents {} path [] p ua uf).outcome = .panicked indexZeroPanic
  ∧ ∀ (env : IoEnv) (formats : List CompressionFormat), formats ≠ [] →
      (list_archive_contents env path formats p ua uf).outcome
        ≠ .panicked indexZeroPanic := by
  refine ⟨rfl, ?_⟩
  intro env formats hne h
  cases formats with
  | nil => exact hne rfl
  | cons f0 rest =>
    by_cases hzip : (f0 :: rest) = [CompressionFormat.Zip]
    · rw [hzip] at h
      unfold list_archive_contents at h
      (repeat' split at h) <;> simp_all
    · cases henv : env.openError with
      | some e =>
          unfold list_archive_contents at h
          rw [henv] at h
          simp at h
      | none =>
          rw [list_cons_reduction env henv path f0 rest p ua uf hzip] at h
          cases hs : chainDecoders env (f0 :: rest) (.bufReader BUFFER_CAPACITY (.file path)) with
          | err e => rw [hs] at h; simp at h
          | panicked m =>
              rw [hs] at h
              have hm : m = indexZeroPanic := by simpa using h
              rcases chainDecoders_panicked env (f0 :: rest) _ m hs with h1 | h1 <;>
                rw [h1] at hm <;> exact absurd hm (by decide)
          | ok reader =>
              rw [hs] at h
              dsimp only at h
              cases hb : filesBranch env path (f0 :: rest) f0 reader p ua uf with
              | files eff =>
                  rw [hb] at h
                  unfold branchFinish at h
                  (repeat' split at h) <;> simp_all
              | earlyOk eff => rw [hb] at h; simp [branchFinish] at h
              | err e eff => rw [hb] at h; simp [branchFinish] at h
              | panicked mm eff =>
                  rw [hb] at h
                  have hmm : mm = notAnArchivePanic :=
                    filesBranch_panicked env path (f0 :: rest) f0 reader p ua uf mm eff hb
                  rw [hmm] at h
                  have hcmp : notAnArchivePanic = indexZeroPanic := by
                    simpa [branchFinish] using h
                  exact absurd hcmp (by decide)

/-- Witness for C10: the empty chain panics with the index message, and
the singleton chain `[Tar]` does not. -/
theorem empty_chain_hits_index_panic_witness :
    (list_archive_contents {} "p" [] .ask false false).outcome = .panicked indexZeroPanic
  ∧ (list_archive_contents {} "p" [.Tar] .ask false false).outcome
      ≠ .panicked indexZeroPanic :=
  ⟨(empty_chain_hits_index_panic "p" .ask false false).1,
   (empty_chain_hits_index_panic "p" .ask false false).2 {} [.Tar] (by decide)⟩

/-! ## Helper lemmas about FinalError rendering -/

lemma unlines_cons (a : String) (l : List String) :
    unlines (a :: l) = a ++ joinLines l := by
  induction l generalizing a with
  | nil => simp [unlines, joinLines]
  | cons b r ih => simp [unlines, joinLines, ih, String.append_assoc]

lemma joinLines_append (l₁ l₂ : List String) :
    joinLines (l₁ ++ l₂) = joinLines l₁ ++ joinLines l₂ := by
  induction l₁ with
  | nil => simp [joinLines]
  | cons a r ih => simp [joinLines, ih, String.append_assoc]

lemma joinLines_detailLines (l : List String) :
    joinLines (l.map fun d => " - " ++ YELLOW ++ d ++ RESET) = renderDetails l := by
  induction l with
  | nil => rfl
  | cons d r ih =>
      simp only [List.map_cons, joinLines, renderDetails, ih]
      have hlit : ("\n - " : String) = "\n" ++ " - " := by decide
      rw [hlit]
      simp only [String.append_assoc]

lemma joinLines_hintLinesStd (l : List String) :
    joinLines (l.map fun h => GREEN ++ "hint:" ++ RESET ++ " " ++ h)
      = renderHintsStandard l := by
  induction l with
  | nil => rfl
  | cons a r ih =>
      simp only [List.map_cons, joinLines, renderHintsStandard, ih]
      simp only [String.append_assoc]

lemma joinLines_sep (l : List String) :
    joinLines ("" :: l) = "\n" ++ joinLines l := by
  simp [joinLines]

lemma render_eq_unlines (e : FinalError) (acc : Bool) :
    e.render acc = unlines (e.renderLines acc) := by
  unfold FinalError.render FinalError.renderLines
  rw [List.append_assoc, List.singleton_append, unlines_cons, joinLines_append,
    joinLines_detailLines]
  by_cases hh : e.hints.isEmpty
  · simp [hh, joinLines]
  · cases acc
    · have hf : ¬((false : Bool) = true) := by simp
      rw [if_neg hh, if_neg hf, if_neg hh, if_neg hf, List.singleton_append,
        joinLines_sep, joinLines_hintLinesStd]
      simp [String.append_assoc]
    · have ht : ((true : Bool) = true) := rfl
      rw [if_neg hh, if_pos ht, if_neg hh, if_pos ht, List.singleton_append,
        joinLines_sep]
      simp [renderHintsAccessible, joinLines, String.append_assoc]

/-- C8: rendering a `FinalError` is a pure function of the value and the
accessibility flag whose output is exactly the join of: one title line,
one line per detail, and (if hints exist) a separator plus the hint lines
— with a single `hints:` header line in accessible mode and a per-line
`hint:` label otherwise; the title line carries `ERROR: ` in accessible
mode instead of `[ERROR] `, and every title, detail and hint string of
the value appears in the output in both modes. -/
theorem final_error_rendering (e : FinalError) (acc : Bool) :
    e.render acc = unlines (e.renderLines acc)
  ∧ (e.renderLines acc).length =
      1 + e.details.length +
        (if e.hints.isEmpty then 0
         else 1 + (if acc then 1 + e.hints.length else e.hints.length))
  ∧ (e.renderLines acc).head? = some (e.titleLine acc)
  ∧ (∃ pre post, e.titleLine acc = pre ++ e.title ++ post
        ∧ (acc = true → pre = RED ++ "ERROR" ++ RESET ++ ": ")
        ∧ (acc = false → pre = RED ++ "[ERROR]" ++ RESET ++ " "))
  ∧ (∀ d, d ∈ e.details → (" - " ++ YELLOW ++ d ++ RESET) ∈ e.renderLines acc)
  ∧ (∀ h, h ∈ e.hints →
        ∃ line, line ∈ e.renderLines acc ∧ ∃ pre post, line = pre ++ h ++ post) := by
  refine ⟨render_eq_unlines e acc, ?_, ?_, ?_, ?_, ?_⟩
  · cases acc <;> by_cases hh : e.hints.isEmpty <;>
      simp [FinalError.renderLines, hh] <;> omega
  · simp [FinalError.renderLines]
  · cases acc
    · exact ⟨RED ++ "[ERROR]" ++ RESET ++ " ", "",
        by simp [FinalError.titleLine, String.append_assoc],
        by intro hc; simp at hc, fun _ => rfl⟩
    · exact ⟨RED ++ "ERROR" ++ RESET ++ ": ", "",
        by simp [FinalError.titleLine, String.append_assoc],
        fun _ => rfl, by intro hc; simp at hc⟩
  · intro d hd
    simp only [FinalError.renderLines, List.mem_append, List.mem_map]
    exact Or.inl (Or.inr ⟨d, hd, rfl⟩)
  · intro h hmem
    have hne : e.hints.isEmpty = false := by
      cases hhints : e.hints with
      | nil => rw [hhints] at hmem; simp at hmem
      | cons a r => simp [hhints]
    cases acc
    · refine ⟨GREEN ++ "hint:" ++ RESET ++ " " ++ h, ?_,
        GREEN ++ "hint:" ++ RESET ++ " ", "", by simp [String.append_assoc]⟩
      simp only [FinalError.renderLines, hne, List.mem_append, List.mem_map]
      simp only [Bool.false_eq_true, if_false, List.mem_append, List.mem_map]
      exact Or.inr (Or.inr ⟨h, hmem, rfl⟩)
    · refine ⟨h, ?_, "", "", by simp⟩
      simp only [FinalError.renderLines, hne]
      simp only [Bool.false_eq_true, if_false, if_true, List.mem_append,
        List.mem_cons, List.mem_singleton]
      exact Or.inr (Or.inr (Or.inr hmem))

/-- Witness for C8: a concrete error with one detail and one hint renders
as the join of its lines, and the detail line occurs among them. -/
theorem final_error_rendering_witness :
    (((FinalError.with_title "t").detail "d").hint "h").render true
        = unlines ((((FinalError.with_title "t").detail "d").hint "h").renderLines true)
  ∧ (" - " ++ YELLOW ++ "d" ++ RESET)
      ∈ (((FinalError.with_title "t").detail "d").hint "h").renderLines true :=
  ⟨(final_error_rendering (((FinalError.with_title "t").detail "d").hint "h") true).1,
   (final_error_rendering (((FinalError.with_title "t").detail "d").hint "h") true).2.2.2.2.1
     "d" (by simp [FinalError.with_title, FinalError.detail, FinalError.hint])⟩

/-- C9: when the core returns an error, `main` renders exactly that one
error block to standard error and exits with the non-zero status
`EXIT_FAILURE`; when it returns `Ok`, nothing is rendered and the exit
status is zero. -/
theorem main_renders_error_once_and_exit_status (r : Except Error Unit) (acc : Bool) :
    (∀ e, r = .error e →
        handle_result r acc = ⟨[e.display acc], EXIT_FAILURE⟩ ∧ EXIT_FAILURE ≠ 0)
  ∧ (r = .ok () → handle_result r acc = ⟨[], 0⟩) := by
  constructor
  · rintro e rfl
    exact ⟨rfl, by decide⟩
  · rintro rfl
    rfl

/-- Witness for C9: a concrete failing result renders once and exits with
`EXIT_FAILURE`; a concrete success renders nothing and exits with 0. -/
theorem main_renders_error_once_and_exit_status_witness :
    handle_result (.error .CompressingRootFolder) false
        = ⟨[Error.display .CompressingRootFolder false], EXIT_FAILURE⟩
  ∧ handle_result (.ok ()) false = ⟨[], 0⟩ :=
  ⟨((main_renders_error_once_and_exit_status (.error .CompressingRootFolder) false).1
      .CompressingRootFolder rfl).1,
   (main_renders_error_once_and_exit_status (.ok ()) false).2 rfl⟩

end Ouch
